import Mathlib

/-!
Verification of the CSS3 Sublime Text completion plugin
(`css3_completions.py`).

The plugin is a single dispatch routine `on_query_completions` plus a
handful of helpers.  We embed it shallowly:

* a scope label is a `String`; the scope stack at a position is a
  `List String`;
* the host editor (`sublime.View`) is modelled by the function
  `scopeAt : Int → List String` giving the scope stack at each position;
  its `match_selector` method is modelled from the spec (see
  `evalSelector` below);
* the static completion-data modules (`CSS3.completions.*`), which are
  repository data files not included here, are abstracted into a
  `Tables` record of opaque lists and association lists;
* Python string operations used by the code (`str.split(".")`,
  `str.startswith`) are embedded over `List Char`
  (`splitOnCharList`, `pyStartswith`);
* a Python `IndexError` is modelled by `Except.error ()`; a Python
  function that can fall off the end (returning `None`) returns an
  `Option`.
-/

deriving instance DecidableEq for Except

/-- A completion item (in the source: a string or a label/snippet tuple;
we keep only the insertion text, which is all the logic ever touches). -/
abbrev Completion := String

/-- Result of a completion query, as the Python code returns it:
either a bare list (word completions stay enabled) or a list paired
with `sublime.INHIBIT_WORD_COMPLETIONS`. -/
inductive QueryResult where
  | items : List Completion → QueryResult
  | itemsInhibit : List Completion → QueryResult
deriving DecidableEq, Repr

/-- The item list carried by a query result, forgetting the flag. -/
def QueryResult.list : QueryResult → List Completion
  | .items xs => xs
  | .itemsInhibit xs => xs

/-- Python's `str.split(sep)` for a one-character separator, over the
character list: `"a.b".split "." = ["a","b"]`, `"".split "." = [""]`. -/
def splitOnCharList (sep : Char) : List Char → List (List Char)
  | [] => [[]]
  | c :: rest =>
    if c = sep then [] :: splitOnCharList sep rest
    else
      match splitOnCharList sep rest with
      | [] => [[c]]
      | g :: gs => (c :: g) :: gs

/-- Python's `s.startswith(p)`. -/
def pyStartswith (s p : String) : Bool :=
  p.data.isPrefixOf s.data

/-- Python's `s.split(".")`, returning strings. -/
def pySplitDot (s : String) : List String :=
  (splitOnCharList '.' s.data).map List.asString

/-- Python's `xs[-2]`: `none` models the `IndexError` raised when the
list has fewer than two elements. -/
def pyIndexNeg2 (xs : List String) : Option String :=
  if xs.length < 2 then none else xs.get? (xs.length - 2)

/-- Python's `dict.get(k, default)` over an association list. -/
def dictGet {α : Type} (d : List (String × α)) (k : String) (dflt : α) : α :=
  match d.find? (fun kv => kv.1 == k) with
  | some kv => kv.2
  | none => dflt

/-- Modelled from the spec: the host editor's scope-selector expressions
are boolean formulas over scope-label prefixes — comma-separated
alternatives (OR), each a space-separated list of terms (AND), a term
being `p` (some label has prefix `p`) or `-p` (no label has prefix `p`).
`parseSelector` turns the selector string into that alternative/term
structure. -/
def parseSelector (sel : String) : List (List String) :=
  (splitOnCharList ',' sel.data).map (fun alt =>
    ((splitOnCharList ' ' alt).filter (fun t => !t.isEmpty)).map List.asString)

/-- Does some label of the stack start with the given dotted prefix? -/
def scopeHasP (scopes : List String) (p : String) : Bool :=
  scopes.any (fun sc => pyStartswith sc p)

/-- Modelled from the spec: evaluate one selector term against a scope
stack (`-p` negates the prefix test). -/
def evalTermStr (scopes : List String) (t : String) : Bool :=
  if pyStartswith t "-" then !(scopeHasP scopes (t.drop 1))
  else scopeHasP scopes t

/-- Modelled from the spec: the host's `match_selector` test of a scope
stack against a selector expression. -/
def evalSelector (scopes : List String) (sel : String) : Bool :=
  (parseSelector sel).any (fun alt => alt.all (evalTermStr scopes))

/-- The host `sublime.View`, reduced to what the plugin consumes: the
scope stack at each integer position. -/
structure View where
  scopeAt : Int → List String

/-- The view's `match_selector(location, selector)` method (modelled
from the spec, see `evalSelector`). -/
def matchSel (v : View) (location : Int) (sel : String) : Bool :=
  evalSelector (v.scopeAt location) sel

/-- Source `get_current_scopes`: `view.scope_name(location).split()`. -/
def get_current_scopes (v : View) (location : Int) : List String :=
  v.scopeAt location

/-- The static completion-data modules (`CSS3.completions.descriptors`,
`functions`, `properties`, `selectors`, `types`), abstracted: the logic
never inspects their contents.  The field `d_allow_word_completions` is
modelled from the spec: the descriptors module's own "free-text
allowed" set, parallel to the functions' set (the module itself is not
part of the analysed source). -/
structure Tables where
  s_at_rules : List Completion
  s_nestable_at_rules : List Completion
  s_keyframes_selector : List Completion
  s_font_feature_types : List Completion
  s_page_margin_boxes : List Completion
  s_at_page_selectors : List Completion
  s_pseudo_elements : List Completion
  s_pseudo_classes : List Completion
  s_html_tags : List Completion
  d_font_face_descriptors : List Completion
  d_viewport_descriptors : List Completion
  d_counter_style_descriptors : List Completion
  d_color_profile_descriptors : List Completion
  d_at_rule_to_completions_dict : List (String × List (String × List Completion))
  d_allow_word_completions : List String
  p_names : List Completion
  p_name_to_completions : List (String × List Completion)
  p_allow_word_completions : List String
  f_func_name_to_completions : List (String × List Completion)
  f_allow_word_completions : List String
  t_var : Completion

/-- Source `get_name(scopes, prefix)`: scan the scope labels from the
last to the first, and for the first one that `startswith` the given
dotted prefix return `scope.split(".")[-2]`; return `""` when none
matches.  `Except.error ()` models the `IndexError` that `[-2]` raises
on a short list. -/
def get_name (scopes : List String) (pfx : String) : Except Unit String :=
  match scopes.reverse.find? (fun scope => pyStartswith scope pfx) with
  | some scope =>
    match pyIndexNeg2 (pySplitDot scope) with
    | some nm => .ok nm
    | none => .error ()
  | none => .ok ""

/-- Source `get_property_values(current_scopes)`. -/
def get_property_values (tb : Tables) (current_scopes : List String) :
    Except Unit QueryResult :=
  match get_name current_scopes "meta.property-value-pair." with
  | .error e => .error e
  | .ok property_name =>
    let completions :=
      dictGet tb.p_name_to_completions property_name [] ++ [tb.t_var]
    if property_name != "" &&
        tb.p_allow_word_completions.contains property_name then
      .ok (.items completions)
    else
      .ok (.itemsInhibit completions)

/-- Source `get_descriptors(current_scopes, descriptors_for)`.  Note
that the suppression test consults `f.allow_word_completions` — the
functions module's set — exactly as the source does. -/
def get_descriptors (tb : Tables) (current_scopes : List String)
    (descriptors_for : String) : Except Unit QueryResult :=
  match get_name current_scopes ("meta.descriptor." ++ descriptors_for) with
  | .error e => .error e
  | .ok descriptor_name =>
    let completions_dict :=
      dictGet tb.d_at_rule_to_completions_dict descriptors_for []
    let completions := dictGet completions_dict descriptor_name [] ++ [tb.t_var]
    if descriptor_name != "" &&
        tb.f_allow_word_completions.contains descriptor_name then
      .ok (.items completions)
    else
      .ok (.itemsInhibit completions)

/-- Source `get_functions(current_scopes)`. -/
def get_functions (tb : Tables) (current_scopes : List String) :
    Except Unit QueryResult :=
  match get_name current_scopes "meta.function." with
  | .error e => .error e
  | .ok func_name =>
    let completions :=
      dictGet tb.f_func_name_to_completions func_name [] ++ [tb.t_var]
    if func_name != "" &&
        tb.f_allow_word_completions.contains func_name then
      .ok (.items completions)
    else
      .ok (.itemsInhibit completions)

/-- Source constant `scopes_that_forbid_nested_at_rules`. -/
def scopes_that_forbid_nested_at_rules : String :=
  "meta.property-list.css, " ++
  "meta.at-rule.font-face.block.css, " ++
  "meta.at-rule.keyframes.block.css, " ++
  "meta.at-rule.font-feature-values.block.css, " ++
  "meta.at-rule.viewport.block.css, " ++
  "meta.at-rule.color-profile.block.css, " ++
  "meta.at-rule.counter-style.block.css, " ++
  "meta.at-rule.page.block.css"

/-- Source `property_name_scope(view, location)`. -/
def property_name_scope (v : View) (location : Int) : Bool :=
  matchSel v location
      "source.css meta.property-list.css -meta.property-value-pair" ||
  matchSel v location
      "source.css meta.page-margin-box.css -meta.property-value-pair"

/-- Source `should_offer_at_rule_completions(view, location)`. -/
def should_offer_at_rule_completions (v : View) (location : Int) : Bool :=
  if !(matchSel v location
      "meta.at-rule.media.block.css, meta.at-rule.supports.block.css") then
    false
  else
    !(matchSel v location scopes_that_forbid_nested_at_rules)

/-- The single completion item offered inside `@charset`. -/
def charsetItem : Completion := "\"UTF-8\";"

/-- Source `handle_completions_inside_at_rules(view, location)`. -/
def handle_completions_inside_at_rules (tb : Tables) (v : View)
    (location : Int) : Except Unit (Option QueryResult) :=
  if should_offer_at_rule_completions v location then
    .ok (some (.itemsInhibit tb.s_nestable_at_rules))
  else if matchSel v location
      "meta.at-rule.keyframes.block.css -meta.keyframes-declaration-list.css" then
    .ok (some (.itemsInhibit tb.s_keyframes_selector))
  else if matchSel v location "meta.at-rule.font-face.block.css" then
    if matchSel v location "source.css -meta.descriptor.font-face" then
      .ok (some (.itemsInhibit tb.d_font_face_descriptors))
    else
      (get_descriptors tb (get_current_scopes v location) "font-face").map some
  else if matchSel v location "meta.at-rule.font-feature-values.block.css" then
    if matchSel v location "-meta.font-feature-type-block.css" then
      .ok (some (.itemsInhibit tb.s_font_feature_types))
    else
      .ok (some (.items []))
  else if matchSel v location "meta.at-rule.viewport.block.css" then
    if matchSel v location "source.css -meta.descriptor.viewport" then
      .ok (some (.itemsInhibit tb.d_viewport_descriptors))
    else
      (get_descriptors tb (get_current_scopes v location) "viewport").map some
  else if matchSel v location
      "meta.at-rule.page.block.css -meta.page-margin-box.css" then
    .ok (some (.itemsInhibit tb.s_page_margin_boxes))
  else if matchSel v location
      "meta.at-rule.page.css -meta.at-rule.page.block.css" then
    .ok (some (.items tb.s_at_page_selectors))
  else if matchSel v location "meta.at-rule.charset.css" then
    .ok (some (.itemsInhibit [charsetItem]))
  else if matchSel v location "meta.at-rule.counter-style.block.css" then
    if matchSel v location "-meta.descriptor.counter-style" then
      .ok (some (.itemsInhibit tb.d_counter_style_descriptors))
    else
      (get_descriptors tb (get_current_scopes v location) "counter-style").map some
  else if matchSel v location "meta.at-rule.color-profile.block.css" then
    if matchSel v location "-meta.descriptor.color-profile" then
      .ok (some (.itemsInhibit tb.d_color_profile_descriptors))
    else
      (get_descriptors tb (get_current_scopes v location) "color-profile").map some
  else
    .ok none

/-- Source `handle_selector_completions(view, location)`. -/
def handle_selector_completions (tb : Tables) (v : View) (location : Int) :
    Option QueryResult :=
  if matchSel v (location - 1)
      "punctuation.definition.entity.pseudo-element.css" then
    some (.itemsInhibit tb.s_pseudo_elements)
  else if matchSel v (location - 1)
      "punctuation.definition.entity.pseudo-class.css" then
    some (.itemsInhibit tb.s_pseudo_classes)
  else if matchSel v location "source.css -entity.other.attribute-name." then
    some (.items tb.s_html_tags)
  else
    none

/-- Source `CSS3Completions.on_query_completions(view, prefix,
locations)`.  `Except.error ()` models an uncaught Python exception
(`locations[0]` on an empty list, or an `IndexError` escaping
`get_name`); `Option.none` models Python's implicit `return None`. -/
def on_query_completions (tb : Tables) (v : View) (pfx : String)
    (locations : List Int) : Except Unit (Option QueryResult) :=
  if locations.length > 1 then
    .ok (some (.itemsInhibit []))
  else
    match locations.head? with
    | none => .error ()
    | some loc0 =>
      if matchSel v loc0 "comment.block.css" then
        .ok (some (.items []))
      else
        let start := loc0 - (pfx.length : Int)
        let current_scopes := get_current_scopes v start
        if matchSel v start "source.css meta.function" then
          (get_functions tb current_scopes).map some
        else if matchSel v start
              "source.css -meta.at-rule -meta.property-list.css" &&
            matchSel v (start - 1) "punctuation.definition.keyword.css" then
          .ok (some (.itemsInhibit tb.s_at_rules))
        else if matchSel v start "source.css meta.at-rule" then
          handle_completions_inside_at_rules tb v start
        else if property_name_scope v start then
          .ok (some (.itemsInhibit tb.p_names))
        else if matchSel v start "source.css meta.property-value-pair" then
          (get_property_values tb current_scopes).map some
        else if matchSel v start "meta.selector.css" then
          .ok (handle_selector_completions tb v start)
        else
          .ok none

/-! ## Helper lemmas -/

/-- Python's split never returns an empty list of groups. -/
theorem splitOnCharList_ne_nil (sep : Char) (l : List Char) :
    splitOnCharList sep l ≠ [] := by
  induction l with
  | nil => simp [splitOnCharList]
  | cons c rest ih =>
    simp only [splitOnCharList]
    split
    · simp
    · split <;> simp

/-- Splitting at a separator that occurs in the list yields at least two
groups. -/
theorem two_le_splitOnCharList_length {sep : Char} {l : List Char}
    (h : sep ∈ l) : 2 ≤ (splitOnCharList sep l).length := by
  induction l with
  | nil => cases h
  | cons c rest ih =>
    simp only [splitOnCharList]
    by_cases hc : c = sep
    · rw [if_pos hc]
      have h0 : (splitOnCharList sep rest) ≠ [] := splitOnCharList_ne_nil sep rest
      have h1 : 0 < (splitOnCharList sep rest).length := List.length_pos.mpr h0
      simp only [List.length_cons]
      omega
    · rw [if_neg hc]
      have hmem : sep ∈ rest := by
        rcases List.mem_cons.mp h with h' | h'
        · exact absurd h'.symm hc
        · exact h'
      have h2 := ih hmem
      cases hsplit : splitOnCharList sep rest with
      | nil => exact absurd hsplit (splitOnCharList_ne_nil sep rest)
      | cons g gs =>
        rw [hsplit] at h2
        simp only [List.length_cons] at h2 ⊢
        omega

/-- Characters of the prefix occur in any string that starts with it. -/
theorem mem_of_pyStartswith {s p : String} {c : Char}
    (h : pyStartswith s p = true) (hc : c ∈ p.data) : c ∈ s.data := by
  unfold pyStartswith at h
  exact (List.isPrefixOf_iff_prefix.mp h).subset hc

/-- Length of the segments of a dotted string. -/
theorem pySplitDot_length (s : String) :
    (pySplitDot s).length = (splitOnCharList '.' s.data).length := by
  simp [pySplitDot]

/-- A string containing a dot splits into at least two segments, so
Python's `[-2]` succeeds on it. -/
theorem pyIndexNeg2_isSome_of_dot {s : String} (h : '.' ∈ s.data) :
    (pyIndexNeg2 (pySplitDot s)).isSome := by
  have h2 : 2 ≤ (pySplitDot s).length := by
    rw [pySplitDot_length]
    exact two_le_splitOnCharList_length h
  unfold pyIndexNeg2
  rw [if_neg (by omega)]
  rw [List.get?_eq_get (by omega)]
  rfl

/-- For a dotted lookup prefix, `get_name` never raises: every label
that starts with the prefix contains a dot, hence has at least two
segments. -/
theorem get_name_isOk_of_dot (pfx : String) (hdot : '.' ∈ pfx.data)
    (scopes : List String) : ∃ nm, get_name scopes pfx = .ok nm := by
  unfold get_name
  cases hf : scopes.reverse.find? (fun scope => pyStartswith scope pfx) with
  | none => exact ⟨"", rfl⟩
  | some scope =>
    dsimp only
    have hp : pyStartswith scope pfx = true := by
      have h' := List.find?_some hf
      simpa using h'
    have hdots : '.' ∈ scope.data := mem_of_pyStartswith hp hdot
    have hsome := pyIndexNeg2_isSome_of_dot hdots
    cases hi : pyIndexNeg2 (pySplitDot scope) with
    | none => rw [hi] at hsome; cases hsome
    | some nm => exact ⟨nm, rfl⟩

/-- Unfolding of the function lookup once the extracted name is known. -/
theorem get_functions_eq (tb : Tables) (cs : List String) (nm : String)
    (h : get_name cs "meta.function." = .ok nm) :
    get_functions tb cs =
      .ok (if nm != "" && tb.f_allow_word_completions.contains nm
        then .items (dictGet tb.f_func_name_to_completions nm [] ++ [tb.t_var])
        else .itemsInhibit
          (dictGet tb.f_func_name_to_completions nm [] ++ [tb.t_var])) := by
  unfold get_functions
  rw [h]
  split
  · rename_i e heq
    cases heq
  · rename_i fn heq
    injection heq with h2
    subst h2
    dsimp only
    split <;> rfl

/-- Unfolding of the property-value lookup once the extracted name is
known. -/
theorem get_property_values_eq (tb : Tables) (cs : List String) (nm : String)
    (h : get_name cs "meta.property-value-pair." = .ok nm) :
    get_property_values tb cs =
      .ok (if nm != "" && tb.p_allow_word_completions.contains nm
        then .items (dictGet tb.p_name_to_completions nm [] ++ [tb.t_var])
        else .itemsInhibit
          (dictGet tb.p_name_to_completions nm [] ++ [tb.t_var])) := by
  unfold get_property_values
  rw [h]
  split
  · rename_i e heq
    cases heq
  · rename_i pn heq
    injection heq with h2
    subst h2
    dsimp only
    split <;> rfl

/-- Unfolding of the descriptor lookup once the extracted name is known.
The suppression test reads the functions module's allow set, as the
source does. -/
theorem get_descriptors_eq (tb : Tables) (cs : List String) (fam nm : String)
    (h : get_name cs ("meta.descriptor." ++ fam) = .ok nm) :
    get_descriptors tb cs fam =
      .ok (if nm != "" && tb.f_allow_word_completions.contains nm
        then .items
          (dictGet (dictGet tb.d_at_rule_to_completions_dict fam []) nm [] ++
            [tb.t_var])
        else .itemsInhibit
          (dictGet (dictGet tb.d_at_rule_to_completions_dict fam []) nm [] ++
            [tb.t_var])) := by
  unfold get_descriptors
  rw [h]
  split
  · rename_i e heq
    cases heq
  · rename_i dn heq
    injection heq with h2
    subst h2
    dsimp only
    split <;> rfl

/-- The lookup prefix used for a descriptor family always contains a
dot. -/
theorem descriptor_pfx_dot (fam : String) :
    '.' ∈ ("meta.descriptor." ++ fam).data := by
  rw [String.data_append]
  exact List.mem_append_left _ (by decide)

/-- The function lookup never raises. -/
theorem get_functions_ne_error (tb : Tables) (cs : List String) :
    get_functions tb cs ≠ .error () := by
  obtain ⟨nm, hnm⟩ := get_name_isOk_of_dot "meta.function." (by decide) cs
  rw [get_functions_eq tb cs nm hnm]
  simp

/-- The property-value lookup never raises. -/
theorem get_property_values_ne_error (tb : Tables) (cs : List String) :
    get_property_values tb cs ≠ .error () := by
  obtain ⟨nm, hnm⟩ :=
    get_name_isOk_of_dot "meta.property-value-pair." (by decide) cs
  rw [get_property_values_eq tb cs nm hnm]
  simp

/-- The descriptor lookup never raises, whatever the at-rule family. -/
theorem get_descriptors_ne_error (tb : Tables) (cs : List String)
    (fam : String) : get_descriptors tb cs fam ≠ .error () := by
  obtain ⟨nm, hnm⟩ := get_name_isOk_of_dot ("meta.descriptor." ++ fam) (descriptor_pfx_dot fam) cs
  rw [get_descriptors_eq tb cs fam nm hnm]
  simp

/-- `find?` skips a leading block on which the predicate is false. -/
theorem find?_append_left_false {α : Type} (p : α → Bool) (l₁ l₂ : List α)
    (h : ∀ x ∈ l₁, p x = false) : (l₁ ++ l₂).find? p = l₂.find? p := by
  induction l₁ with
  | nil => rfl
  | cons a l ih =>
    have ha : p a = false := h a (by simp)
    rw [List.cons_append, List.find?_cons_of_neg _ (by simp [ha])]
    exact ih (fun x hx => h x (by simp [hx]))

/-! ## Characterizations of the concrete scope selectors

These unfold the spec-modelled selector evaluator on the selector
strings that appear in the source, turning each into an explicit
boolean combination of label-prefix tests. -/

/-- A positive single-prefix selector just tests that prefix. -/
theorem evalSel_comment (scopes : List String) :
    evalSelector scopes "comment.block.css" =
      scopeHasP scopes "comment.block.css" := by
  show ((scopeHasP scopes "comment.block.css" && true) || false) = _
  simp

/-- The `@media`/`@supports` alternative selector. -/
theorem evalSel_media_supports (scopes : List String) :
    evalSelector scopes
        "meta.at-rule.media.block.css, meta.at-rule.supports.block.css" =
      (scopeHasP scopes "meta.at-rule.media.block.css" ||
       scopeHasP scopes "meta.at-rule.supports.block.css") := by
  show ((scopeHasP scopes "meta.at-rule.media.block.css" && true) ||
        ((scopeHasP scopes "meta.at-rule.supports.block.css" && true) ||
          false)) = _
  simp

/-- The eight scope prefixes that forbid nested at-rules. -/
def forbidP : List String :=
  ["meta.property-list.css",
   "meta.at-rule.font-face.block.css",
   "meta.at-rule.keyframes.block.css",
   "meta.at-rule.font-feature-values.block.css",
   "meta.at-rule.viewport.block.css",
   "meta.at-rule.color-profile.block.css",
   "meta.at-rule.counter-style.block.css",
   "meta.at-rule.page.block.css"]

/-- The forbidding selector is the disjunction of its eight prefix
tests. -/
theorem evalSel_forbid (scopes : List String) :
    evalSelector scopes scopes_that_forbid_nested_at_rules =
      forbidP.any (fun p => scopeHasP scopes p) := by
  show ((scopeHasP scopes "meta.property-list.css" && true) ||
        ((scopeHasP scopes "meta.at-rule.font-face.block.css" && true) ||
        ((scopeHasP scopes "meta.at-rule.keyframes.block.css" && true) ||
        ((scopeHasP scopes "meta.at-rule.font-feature-values.block.css" && true) ||
        ((scopeHasP scopes "meta.at-rule.viewport.block.css" && true) ||
        ((scopeHasP scopes "meta.at-rule.color-profile.block.css" && true) ||
        ((scopeHasP scopes "meta.at-rule.counter-style.block.css" && true) ||
        ((scopeHasP scopes "meta.at-rule.page.block.css" && true) ||
          false)))))))) = _
  simp [forbidP]

/-- The pseudo-element punctuation selector. -/
theorem evalSel_pseudo_element (scopes : List String) :
    evalSelector scopes "punctuation.definition.entity.pseudo-element.css" =
      scopeHasP scopes "punctuation.definition.entity.pseudo-element.css" := by
  show ((scopeHasP scopes "punctuation.definition.entity.pseudo-element.css" &&
          true) || false) = _
  simp

/-- The pseudo-class punctuation selector. -/
theorem evalSel_pseudo_class (scopes : List String) :
    evalSelector scopes "punctuation.definition.entity.pseudo-class.css" =
      scopeHasP scopes "punctuation.definition.entity.pseudo-class.css" := by
  show ((scopeHasP scopes "punctuation.definition.entity.pseudo-class.css" &&
          true) || false) = _
  simp

/-- The selector used for the HTML-tag branch: in `source.css`, outside
an attribute-name region. -/
theorem evalSel_attr_name (scopes : List String) :
    evalSelector scopes "source.css -entity.other.attribute-name." =
      (scopeHasP scopes "source.css" &&
       !scopeHasP scopes "entity.other.attribute-name.") := by
  show ((scopeHasP scopes "source.css" &&
        (!scopeHasP scopes "entity.other.attribute-name." && true)) ||
          false) = _
  simp

/-! ## Concrete fixtures for witnesses and counterexamples -/

/-- A small concrete instance of the completion tables. -/
def tbW : Tables where
  s_at_rules := ["@media"]
  s_nestable_at_rules := ["@supports"]
  s_keyframes_selector := ["from"]
  s_font_feature_types := ["@styleset"]
  s_page_margin_boxes := ["@top-left"]
  s_at_page_selectors := [":left"]
  s_pseudo_elements := ["after"]
  s_pseudo_classes := ["hover"]
  s_html_tags := ["div"]
  d_font_face_descriptors := ["font-family: "]
  d_viewport_descriptors := ["width: "]
  d_counter_style_descriptors := ["system: "]
  d_color_profile_descriptors := ["src: "]
  d_at_rule_to_completions_dict := [("font-face", [("font-family", ["serif"])])]
  d_allow_word_completions := ["x"]
  p_names := ["color: "]
  p_name_to_completions := [("color", ["red"])]
  p_allow_word_completions := ["voice-family"]
  f_func_name_to_completions := [("counter", ["page"])]
  f_allow_word_completions := ["counter"]
  t_var := "var()"

/-- A view whose every position sits directly in plain CSS source. -/
def vW : View := ⟨fun _ => ["source.css"]⟩

/-- A view with a comment that covers position 9 but not position 10:
the character before the cursor is the last character of a comment that
the tokenizer also classifies as part of a selector. -/
def vC2 : View :=
  ⟨fun loc =>
    if loc = 9 then ["source.css", "meta.selector.css", "comment.block.css"]
    else ["source.css"]⟩

/-- A scope stack inside a function call that is itself inside a
property value, as in `color: rgb(|`. -/
def stackC8 : List String :=
  ["source.css", "meta.property-value-pair.color.css", "meta.function.rgb.css"]

/-- A view presenting `stackC8` everywhere. -/
def vC8 : View := ⟨fun _ => stackC8⟩

/-! ## Claim theorems -/

/-- C6: with more than one cursor position the classifier returns the
reject outcome — an empty list with the suppress-word-completions flag —
for every view, so the scope query is never consulted. -/
theorem multi_cursor_rejects (tb : Tables) (v : View) (pfx : String)
    (locations : List Int) (h : locations.length > 1) :
    on_query_completions tb v pfx locations =
      .ok (some (.itemsInhibit [])) := by
  unfold on_query_completions
  rw [if_pos h]

/-- Witness for `multi_cursor_rejects` at two concrete cursors. -/
theorem multi_cursor_rejects_witness :
    on_query_completions tbW vW "co" [3, 7] = .ok (some (.itemsInhibit [])) :=
  multi_cursor_rejects tbW vW "co" [3, 7] (by decide)

/-- C10: the completion result depends on the typed prefix only through
its length — two invocations differing only in equal-length prefixes
return identical results. -/
theorem result_depends_only_on_prefix_length (tb : Tables) (v : View)
    (p1 p2 : String) (locations : List Int) (h : p1.length = p2.length) :
    on_query_completions tb v p1 locations =
      on_query_completions tb v p2 locations := by
  unfold on_query_completions
  rw [h]

/-- Witness for `result_depends_only_on_prefix_length` with two
different two-character prefixes. -/
theorem result_depends_only_on_prefix_length_witness :
    on_query_completions tbW vW "ab" [5] =
      on_query_completions tbW vW "cd" [5] :=
  result_depends_only_on_prefix_length tbW vW "ab" "cd" [5] (by decide)

/-- C2 counterexample: the code tests the comment scope at the cursor
position `locations[0]`, not at the start of the prefix.  Here the
start-of-prefix position 9 is inside a comment, yet the classifier
returns the HTML-tag list instead of the empty list the claim
demands. -/
theorem comment_start_of_prefix_cex :
    matchSel vC2 ((10 : Int) - (("x" : String).length : Int))
        "comment.block.css" = true ∧
    on_query_completions tbW vC2 "x" [10] ≠ .ok (some (.items [])) := by
  decide

/-- C2 (amended): when the scope at the cursor position itself (not at
the start of the prefix) matches the comment selector, the single-cursor
classifier returns the empty list without suppressing word
completions. -/
theorem comment_at_cursor_empty (tb : Tables) (v : View) (pfx : String)
    (loc : Int) (h : matchSel v loc "comment.block.css" = true) :
    on_query_completions tb v pfx [loc] = .ok (some (.items [])) := by
  unfold on_query_completions
  simp [h]

/-- Witness for `comment_at_cursor_empty` at a concrete comment
position. -/
theorem comment_at_cursor_empty_witness :
    on_query_completions tbW vC2 "" [9] = .ok (some (.items [])) :=
  comment_at_cursor_empty tbW vC2 "" 9 (by decide)

/-- C3: `get_name` scans the scope labels from innermost (last) to
outermost (first); when no label starts with the prefix it returns the
empty string, and otherwise it returns the dotted segment immediately
preceding the final segment of the innermost matching label — labels
further out are ignored. -/
theorem get_name_rightmost_characterization :
    (∀ (scopes : List String) (pfx : String),
      (∀ sc ∈ scopes, pyStartswith sc pfx = false) →
      get_name scopes pfx = .ok "") ∧
    (∀ (pre : List String) (sc : String) (zs : List String) (pfx : String)
        (n : Nat),
      pyStartswith sc pfx = true →
      (∀ z ∈ zs, pyStartswith z pfx = false) →
      (pySplitDot sc).length = n → 2 ≤ n →
      get_name (pre ++ sc :: zs) pfx =
        .ok ((pySplitDot sc).getD (n - 2) "")) := by
  constructor
  · intro scopes pfx h
    unfold get_name
    rw [List.find?_eq_none.mpr]
    · intro x hx
      simp [h x (List.mem_reverse.mp hx)]
  · intro pre sc zs pfx n hsc hzs hlen h2
    unfold get_name
    have hrev : (pre ++ sc :: zs).reverse =
        zs.reverse ++ (sc :: pre.reverse) := by
      simp
    rw [hrev]
    rw [find?_append_left_false _ _ _
      (fun z hz => hzs z (List.mem_reverse.mp hz))]
    have hfind : List.find? (fun z => pyStartswith z pfx)
        (sc :: pre.reverse) = some sc := List.find?_cons_of_pos _ hsc
    rw [hfind]
    dsimp only
    unfold pyIndexNeg2
    rw [hlen, if_neg (by omega)]
    rw [List.get?_eq_get (by omega)]
    rw [List.getD_eq_getElem _ _ (by omega)]
    rfl

/-- Witness for `get_name_rightmost_characterization`: no matching label
gives the empty string, and with two matching labels the name comes from
the innermost one (`"a.b.x.css"`, giving `"x"`). -/
theorem get_name_rightmost_witness :
    get_name ["source.css", "meta.function.baz.css"]
        "meta.descriptor.color-profile" = .ok "" ∧
    get_name (["a.b.css"] ++ "a.b.x.css" :: []) "a.b" =
      .ok ((pySplitDot "a.b.x.css").getD (4 - 2) "") :=
  ⟨get_name_rightmost_characterization.1 _ _ (by decide),
   get_name_rightmost_characterization.2 ["a.b.css"] "a.b.x.css" [] "a.b" 4
     (by decide) (by decide) (by decide) (by decide)⟩

/-- C4: each of the three delegated lookups returns, as its item list,
the table lookup for the extracted name with exactly one generic `var()`
placeholder appended — also when the name is absent from the table and
the base list is empty. -/
theorem lookup_appends_var_placeholder (tb : Tables) (cs : List String)
    (nm : String) :
    (get_name cs "meta.function." = .ok nm →
      (get_functions tb cs).map QueryResult.list =
        .ok (dictGet tb.f_func_name_to_completions nm [] ++ [tb.t_var])) ∧
    (∀ fam, get_name cs ("meta.descriptor." ++ fam) = .ok nm →
      (get_descriptors tb cs fam).map QueryResult.list =
        .ok (dictGet (dictGet tb.d_at_rule_to_completions_dict fam []) nm []
          ++ [tb.t_var])) ∧
    (get_name cs "meta.property-value-pair." = .ok nm →
      (get_property_values tb cs).map QueryResult.list =
        .ok (dictGet tb.p_name_to_completions nm [] ++ [tb.t_var])) := by
  refine ⟨?_, ?_, ?_⟩
  · intro h
    rw [get_functions_eq tb cs nm h]
    split <;> rfl
  · intro fam h
    rw [get_descriptors_eq tb cs fam nm h]
    split <;> rfl
  · intro h
    rw [get_property_values_eq tb cs nm h]
    split <;> rfl

/-- Witness for `lookup_appends_var_placeholder`: all three lookups, on
concrete scope stacks, including a descriptor name absent from the table
(base list empty). -/
theorem lookup_appends_var_placeholder_witness :
    ((get_functions tbW ["meta.function.counter.css"]).map QueryResult.list =
      .ok (dictGet tbW.f_func_name_to_completions "counter" [] ++ [tbW.t_var])) ∧
    ((get_descriptors tbW ["meta.descriptor.viewport.zoom.css"]
        "viewport").map QueryResult.list =
      .ok (dictGet (dictGet tbW.d_at_rule_to_completions_dict "viewport" [])
        "zoom" [] ++ [tbW.t_var])) ∧
    ((get_property_values tbW
        ["meta.property-value-pair.color.css"]).map QueryResult.list =
      .ok (dictGet tbW.p_name_to_completions "color" [] ++ [tbW.t_var])) :=
  ⟨(lookup_appends_var_placeholder tbW ["meta.function.counter.css"]
      "counter").1 (by decide),
   (lookup_appends_var_placeholder tbW ["meta.descriptor.viewport.zoom.css"]
      "zoom").2.1 "viewport" (by decide),
   (lookup_appends_var_placeholder tbW ["meta.property-value-pair.color.css"]
      "color").2.2 (by decide)⟩

/-- Boolean form of the free-text-allowed test used by the lookups. -/
theorem allow_cond_iff (nm : String) (l : List String) :
    ((nm != "") && l.contains nm) = true ↔ (nm ≠ "" ∧ nm ∈ l) := by
  simp

/-- A lookup result of the `if`-shape produced by the three lookups is
an uninhibited item list exactly when the condition holds. -/
theorem ok_if_eq_ok_items_iff (cond : Bool) (xs : List Completion) :
    (∃ ys, (Except.ok
        (if cond then QueryResult.items xs else QueryResult.itemsInhibit xs) :
          Except Unit QueryResult) =
      .ok (QueryResult.items ys)) ↔ cond = true := by
  cases cond with
  | false => simp
  | true => simp

/-- C1 counterexample: the descriptor lookup extracts the name `"x"`,
which is a member of the descriptor family's own allow set
(`d_allow_word_completions`, modelled from the spec) but not of the
functions' set; the claim demands the candidate list without the
suppress flag, yet the code suppresses because it consults
`f.allow_word_completions`. -/
theorem descriptor_allow_set_cex :
    get_name ["meta.descriptor.font-face.x.css"]
        ("meta.descriptor." ++ "font-face") = .ok "x" ∧
    "x" ∈ tbW.d_allow_word_completions ∧
    "x" ∉ tbW.f_allow_word_completions ∧
    ¬(∃ xs, get_descriptors tbW ["meta.descriptor.font-face.x.css"]
        "font-face" = .ok (.items xs)) := by
  refine ⟨by decide, by decide, by decide, ?_⟩
  rintro ⟨xs, h⟩
  have hres : get_descriptors tbW ["meta.descriptor.font-face.x.css"]
      "font-face" = .ok (.itemsInhibit ["var()"]) := by decide
  rw [hres] at h
  simp at h

/-- C1 (amended): suppression is decided by the set each lookup actually
consults — the function and property-value lookups use their own
module's allow set, while the descriptor lookup also uses the functions
module's set (there is no descriptor-family set in the code).  With the
extracted name non-empty and in the consulted set the result is the
uninhibited candidate list; otherwise the same list carries the
suppress-word-completions flag. -/
theorem lookup_suppression_characterization (tb : Tables)
    (cs : List String) (nm : String) :
    (get_name cs "meta.function." = .ok nm →
      (((∃ xs, get_functions tb cs = .ok (.items xs)) ↔
          (nm ≠ "" ∧ nm ∈ tb.f_allow_word_completions)) ∧
        (¬(nm ≠ "" ∧ nm ∈ tb.f_allow_word_completions) →
          get_functions tb cs = .ok (.itemsInhibit
            (dictGet tb.f_func_name_to_completions nm [] ++ [tb.t_var]))))) ∧
    (∀ fam, get_name cs ("meta.descriptor." ++ fam) = .ok nm →
      (((∃ xs, get_descriptors tb cs fam = .ok (.items xs)) ↔
          (nm ≠ "" ∧ nm ∈ tb.f_allow_word_completions)) ∧
        (¬(nm ≠ "" ∧ nm ∈ tb.f_allow_word_completions) →
          get_descriptors tb cs fam = .ok (.itemsInhibit
            (dictGet (dictGet tb.d_at_rule_to_completions_dict fam []) nm []
              ++ [tb.t_var]))))) ∧
    (get_name cs "meta.property-value-pair." = .ok nm →
      (((∃ xs, get_property_values tb cs = .ok (.items xs)) ↔
          (nm ≠ "" ∧ nm ∈ tb.p_allow_word_completions)) ∧
        (¬(nm ≠ "" ∧ nm ∈ tb.p_allow_word_completions) →
          get_property_values tb cs = .ok (.itemsInhibit
            (dictGet tb.p_name_to_completions nm [] ++ [tb.t_var]))))) := by
  refine ⟨?_, ?_, ?_⟩
  · intro h
    rw [get_functions_eq tb cs nm h]
    constructor
    · rw [ok_if_eq_ok_items_iff]
      exact allow_cond_iff nm _
    · intro hneg
      rw [if_neg (fun hc => hneg ((allow_cond_iff nm _).mp hc))]
  · intro fam h
    rw [get_descriptors_eq tb cs fam nm h]
    constructor
    · rw [ok_if_eq_ok_items_iff]
      exact allow_cond_iff nm _
    · intro hneg
      rw [if_neg (fun hc => hneg ((allow_cond_iff nm _).mp hc))]
  · intro h
    rw [get_property_values_eq tb cs nm h]
    constructor
    · rw [ok_if_eq_ok_items_iff]
      exact allow_cond_iff nm _
    · intro hneg
      rw [if_neg (fun hc => hneg ((allow_cond_iff nm _).mp hc))]

/-- Witness for `lookup_suppression_characterization`: an allowed
function name is uninhibited, a descriptor name outside the functions'
set is inhibited, and an allowed property name is uninhibited. -/
theorem lookup_suppression_characterization_witness :
    (∃ xs, get_functions tbW ["meta.function.counter.css"] =
      .ok (.items xs)) ∧
    get_descriptors tbW ["meta.descriptor.font-face.x.css"] "font-face" =
      .ok (.itemsInhibit
        (dictGet (dictGet tbW.d_at_rule_to_completions_dict "font-face" [])
          "x" [] ++ [tbW.t_var])) ∧
    (∃ xs, get_property_values tbW
      ["meta.property-value-pair.voice-family.css"] = .ok (.items xs)) :=
  ⟨(((lookup_suppression_characterization tbW ["meta.function.counter.css"]
      "counter").1 (by decide)).1).mpr (by decide),
   (((lookup_suppression_characterization tbW
      ["meta.descriptor.font-face.x.css"] "x").2.1 "font-face"
      (by decide)).2) (by decide),
   (((lookup_suppression_characterization tbW
      ["meta.property-value-pair.voice-family.css"] "voice-family").2.2
      (by decide)).1).mpr (by decide)⟩

/-- A view inside an `@media` block with no forbidding ancestor. -/
def vMedia : View := ⟨fun _ => ["source.css", "meta.at-rule.media.block.css"]⟩

/-- A view inside an `@media` block but also inside a property list,
which forbids nested at-rules. -/
def vMediaForbid : View :=
  ⟨fun _ => ["source.css", "meta.at-rule.media.block.css",
    "meta.property-list.css"]⟩

/-- C5: the nested at-rule keyword list (with suppression) is produced
exactly when the scope matches an `@media` or `@supports` block and none
of the eight forbidding scopes; with a forbidding scope present the
at-rule handler falls through to its other branches and, when none of
them matches either, yields no result. -/
theorem at_rule_nesting_characterization :
    (∀ (v : View) (loc : Int),
      should_offer_at_rule_completions v loc = true ↔
        ((scopeHasP (v.scopeAt loc) "meta.at-rule.media.block.css" = true ∨
          scopeHasP (v.scopeAt loc) "meta.at-rule.supports.block.css" = true) ∧
         ∀ p ∈ forbidP, scopeHasP (v.scopeAt loc) p = false)) ∧
    (∀ (tb : Tables) (v : View) (loc : Int),
      should_offer_at_rule_completions v loc = true →
      handle_completions_inside_at_rules tb v loc =
        .ok (some (.itemsInhibit tb.s_nestable_at_rules))) ∧
    (∀ (tb : Tables) (v : View) (loc : Int),
      should_offer_at_rule_completions v loc = false →
      matchSel v loc
        "meta.at-rule.keyframes.block.css -meta.keyframes-declaration-list.css"
        = false →
      matchSel v loc "meta.at-rule.font-face.block.css" = false →
      matchSel v loc "meta.at-rule.font-feature-values.block.css" = false →
      matchSel v loc "meta.at-rule.viewport.block.css" = false →
      matchSel v loc "meta.at-rule.page.block.css -meta.page-margin-box.css"
        = false →
      matchSel v loc "meta.at-rule.page.css -meta.at-rule.page.block.css"
        = false →
      matchSel v loc "meta.at-rule.charset.css" = false →
      matchSel v loc "meta.at-rule.counter-style.block.css" = false →
      matchSel v loc "meta.at-rule.color-profile.block.css" = false →
      handle_completions_inside_at_rules tb v loc = .ok none) := by
  refine ⟨?_, ?_, ?_⟩
  · intro v loc
    unfold should_offer_at_rule_completions matchSel
    rw [evalSel_media_supports, evalSel_forbid]
    cases hA : scopeHasP (v.scopeAt loc) "meta.at-rule.media.block.css" <;>
      cases hB : scopeHasP (v.scopeAt loc) "meta.at-rule.supports.block.css" <;>
      cases hF : forbidP.any (fun p => scopeHasP (v.scopeAt loc) p) <;>
      simp_all [List.any_eq_false]
  · intro tb v loc h
    unfold handle_completions_inside_at_rules
    rw [if_pos h]
  · intro tb v loc h0 h1 h2 h3 h4 h5 h6 h7 h8 h9
    unfold handle_completions_inside_at_rules
    simp [h0, h1, h2, h3, h4, h5, h6, h7, h8, h9]

/-- Witness for `at_rule_nesting_characterization`: inside `@media` the
nested at-rule list is offered; add a surrounding property list and the
handler yields no result. -/
theorem at_rule_nesting_witness :
    should_offer_at_rule_completions vMedia 0 = true ∧
    handle_completions_inside_at_rules tbW vMedia 0 =
      .ok (some (.itemsInhibit tbW.s_nestable_at_rules)) ∧
    handle_completions_inside_at_rules tbW vMediaForbid 0 = .ok none :=
  ⟨(at_rule_nesting_characterization.1 vMedia 0).mpr
      (by refine ⟨Or.inl (by decide), ?_⟩; decide),
   at_rule_nesting_characterization.2.1 tbW vMedia 0 (by decide),
   at_rule_nesting_characterization.2.2 tbW vMediaForbid 0 (by decide)
     (by decide) (by decide) (by decide) (by decide) (by decide) (by decide)
     (by decide) (by decide) (by decide)⟩

/-- C7: the selector dispatch tries, in order: pseudo-element keywords
(suppressing) when the character before the prefix start carries the
pseudo-element punctuation scope; else pseudo-class keywords
(suppressing) for the pseudo-class punctuation scope; else the HTML tag
list (not suppressing) when in `source.css` outside an attribute-name
region; else no result. -/
theorem selector_dispatch_characterization (tb : Tables) (v : View)
    (loc : Int) :
    (scopeHasP (v.scopeAt (loc - 1))
        "punctuation.definition.entity.pseudo-element.css" = true →
      handle_selector_completions tb v loc =
        some (.itemsInhibit tb.s_pseudo_elements)) ∧
    (scopeHasP (v.scopeAt (loc - 1))
        "punctuation.definition.entity.pseudo-element.css" = false →
      scopeHasP (v.scopeAt (loc - 1))
        "punctuation.definition.entity.pseudo-class.css" = true →
      handle_selector_completions tb v loc =
        some (.itemsInhibit tb.s_pseudo_classes)) ∧
    (scopeHasP (v.scopeAt (loc - 1))
        "punctuation.definition.entity.pseudo-element.css" = false →
      scopeHasP (v.scopeAt (loc - 1))
        "punctuation.definition.entity.pseudo-class.css" = false →
      scopeHasP (v.scopeAt loc) "source.css" = true →
      scopeHasP (v.scopeAt loc) "entity.other.attribute-name." = false →
      handle_selector_completions tb v loc = some (.items tb.s_html_tags)) ∧
    (scopeHasP (v.scopeAt (loc - 1))
        "punctuation.definition.entity.pseudo-element.css" = false →
      scopeHasP (v.scopeAt (loc - 1))
        "punctuation.definition.entity.pseudo-class.css" = false →
      (scopeHasP (v.scopeAt loc) "source.css" &&
        !scopeHasP (v.scopeAt loc) "entity.other.attribute-name.") = false →
      handle_selector_completions tb v loc = none) := by
  unfold handle_selector_completions matchSel
  rw [evalSel_pseudo_element, evalSel_pseudo_class, evalSel_attr_name]
  refine ⟨?_, ?_, ?_, ?_⟩
  · intro h1
    rw [if_pos h1]
  · intro h1 h2
    rw [if_neg (by simp [h1]), if_pos h2]
  · intro h1 h2 h3 h4
    rw [if_neg (by simp [h1]), if_neg (by simp [h2]),
      if_pos (by simp [h3, h4])]
  · intro h1 h2 h3
    rw [if_neg (by simp [h1]), if_neg (by simp [h2]), if_neg (by simp [h3])]

/-- A view with pseudo-element punctuation just before position 5. -/
def vPseudoElem : View :=
  ⟨fun l =>
    if l = 4 then ["source.css", "meta.selector.css",
      "punctuation.definition.entity.pseudo-element.css"]
    else ["source.css", "meta.selector.css"]⟩

/-- A view with pseudo-class punctuation just before position 5. -/
def vPseudoClass : View :=
  ⟨fun l =>
    if l = 4 then ["source.css", "meta.selector.css",
      "punctuation.definition.entity.pseudo-class.css"]
    else ["source.css", "meta.selector.css"]⟩

/-- A view inside an attribute-name region of a selector. -/
def vAttrName : View :=
  ⟨fun _ => ["source.css", "meta.selector.css",
    "entity.other.attribute-name.class.css"]⟩

/-- Witness for `selector_dispatch_characterization`: the four branches
at concrete positions. -/
theorem selector_dispatch_witness :
    handle_selector_completions tbW vPseudoElem 5 =
      some (.itemsInhibit tbW.s_pseudo_elements) ∧
    handle_selector_completions tbW vPseudoClass 5 =
      some (.itemsInhibit tbW.s_pseudo_classes) ∧
    handle_selector_completions tbW vW 5 = some (.items tbW.s_html_tags) ∧
    handle_selector_completions tbW vAttrName 5 = none :=
  ⟨(selector_dispatch_characterization tbW vPseudoElem 5).1 (by decide),
   (selector_dispatch_characterization tbW vPseudoClass 5).2.1
     (by decide) (by decide),
   (selector_dispatch_characterization tbW vW 5).2.2.1
     (by decide) (by decide) (by decide) (by decide),
   (selector_dispatch_characterization tbW vAttrName 5).2.2.2
     (by decide) (by decide) (by decide)⟩

/-- Wrapping a non-raising result with `some` keeps it non-raising. -/
theorem map_some_ne_error {e : Except Unit QueryResult}
    (h : e ≠ .error ()) : e.map some ≠ .error () := by
  cases e with
  | error u => cases u; exact absurd rfl h
  | ok r => simp [Except.map]

/-- A successful constructor never equals the error result. -/
theorem ok_ne_error {α : Type} (r : α) :
    (Except.ok r : Except Unit α) ≠ .error () := by
  simp

/-- An if-expression is non-raising when both branches are. -/
theorem ite_ne_error {c : Prop} [Decidable c]
    {a b : Except Unit (Option QueryResult)}
    (ha : a ≠ .error ()) (hb : b ≠ .error ()) :
    (if c then a else b) ≠ .error () := by
  split
  · exact ha
  · exact hb

/-- The at-rule handler never raises: every branch returns a value, and
the descriptor lookups it delegates to never raise. -/
theorem handle_at_rules_ne_error (tb : Tables) (v : View) (loc : Int) :
    handle_completions_inside_at_rules tb v loc ≠ .error () := by
  unfold handle_completions_inside_at_rules
  exact ite_ne_error (ok_ne_error _)
    (ite_ne_error (ok_ne_error _)
    (ite_ne_error (ite_ne_error (ok_ne_error _)
      (map_some_ne_error (get_descriptors_ne_error _ _ _)))
    (ite_ne_error (ite_ne_error (ok_ne_error _) (ok_ne_error _))
    (ite_ne_error (ite_ne_error (ok_ne_error _)
      (map_some_ne_error (get_descriptors_ne_error _ _ _)))
    (ite_ne_error (ok_ne_error _)
    (ite_ne_error (ok_ne_error _)
    (ite_ne_error (ok_ne_error _)
    (ite_ne_error (ite_ne_error (ok_ne_error _)
      (map_some_ne_error (get_descriptors_ne_error _ _ _)))
    (ite_ne_error (ite_ne_error (ok_ne_error _)
      (map_some_ne_error (get_descriptors_ne_error _ _ _)))
      (ok_ne_error _))))))))))

/-- C9: with at least one cursor the classifier completes without
raising, whatever the scope query returns — in particular the `[-2]`
segment indexing inside `get_name` cannot fail for the dotted lookup
prefixes the three lookups use — and when no branch predicate matches
the terminal outcome is no result. -/
theorem classifier_no_exceptions :
    (∀ (tb : Tables) (v : View) (pfx : String) (locations : List Int),
      locations ≠ [] →
      on_query_completions tb v pfx locations ≠ .error ()) ∧
    (∀ (tb : Tables) (v : View) (pfx : String) (loc : Int),
      matchSel v loc "comment.block.css" = false →
      matchSel v (loc - (pfx.length : Int)) "source.css meta.function"
        = false →
      (matchSel v (loc - (pfx.length : Int))
          "source.css -meta.at-rule -meta.property-list.css" &&
        matchSel v (loc - (pfx.length : Int) - 1)
          "punctuation.definition.keyword.css") = false →
      matchSel v (loc - (pfx.length : Int)) "source.css meta.at-rule"
        = false →
      property_name_scope v (loc - (pfx.length : Int)) = false →
      matchSel v (loc - (pfx.length : Int))
        "source.css meta.property-value-pair" = false →
      matchSel v (loc - (pfx.length : Int)) "meta.selector.css" = false →
      on_query_completions tb v pfx [loc] = .ok none) := by
  constructor
  · intro tb v pfx locations hne
    unfold on_query_completions
    split
    · simp
    · split
      · rename_i heq
        exact absurd (List.head?_eq_none_iff.mp heq) hne
      · dsimp only
        repeat' split
        all_goals first
          | exact map_some_ne_error (get_functions_ne_error _ _)
          | exact map_some_ne_error (get_property_values_ne_error _ _)
          | exact handle_at_rules_ne_error _ _ _
          | simp
  · intro tb v pfx loc h1 h2 h3 h4 h5 h6 h7
    unfold on_query_completions
    simp [h1, h2, h3, h4, h5, h6, h7]

/-- Witness for `classifier_no_exceptions`: a concrete single-cursor
query does not raise, and in a plain-source scope where no predicate
matches the result is no result. -/
theorem classifier_no_exceptions_witness :
    on_query_completions tbW vW "ab" [5] ≠ .error () ∧
    on_query_completions tbW vW "ab" [5] = .ok none :=
  ⟨classifier_no_exceptions.1 tbW vW "ab" [5] (by decide),
   classifier_no_exceptions.2 tbW vW "ab" 5 (by decide) (by decide)
     (by decide) (by decide) (by decide) (by decide) (by decide)⟩

/-- C8 counterexample: a scope stack for a function call inside a
property value (`color: rgb(|`) satisfies both the function-argument
predicate and the property-value predicate at the same non-comment
position, so the six branch predicates are not mutually exclusive. -/
theorem branch_predicates_not_exclusive_cex :
    matchSel vC8 0 "comment.block.css" = false ∧
    matchSel vC8 0 "source.css meta.function" = true ∧
    matchSel vC8 0 "source.css meta.property-value-pair" = true := by
  decide

/-- C8 (amended): the six branch predicates are not mutually exclusive;
instead the cascade tests them in a fixed priority order and the
completion result comes from the first branch whose predicate holds, so
the outcome is determined by that order. -/
theorem cascade_first_match (tb : Tables) (v : View) (pfx : String)
    (loc : Int) (hc : matchSel v loc "comment.block.css" = false) :
    (matchSel v (loc - (pfx.length : Int)) "source.css meta.function"
        = true →
      on_query_completions tb v pfx [loc] =
        (get_functions tb
          (get_current_scopes v (loc - (pfx.length : Int)))).map some) ∧
    (matchSel v (loc - (pfx.length : Int)) "source.css meta.function"
        = false →
      (matchSel v (loc - (pfx.length : Int))
          "source.css -meta.at-rule -meta.property-list.css" &&
        matchSel v (loc - (pfx.length : Int) - 1)
          "punctuation.definition.keyword.css") = true →
      on_query_completions tb v pfx [loc] =
        .ok (some (.itemsInhibit tb.s_at_rules))) ∧
    (matchSel v (loc - (pfx.length : Int)) "source.css meta.function"
        = false →
      (matchSel v (loc - (pfx.length : Int))
          "source.css -meta.at-rule -meta.property-list.css" &&
        matchSel v (loc - (pfx.length : Int) - 1)
          "punctuation.definition.keyword.css") = false →
      matchSel v (loc - (pfx.length : Int)) "source.css meta.at-rule"
        = true →
      on_query_completions tb v pfx [loc] =
        handle_completions_inside_at_rules tb v (loc - (pfx.length : Int))) ∧
    (matchSel v (loc - (pfx.length : Int)) "source.css meta.function"
        = false →
      (matchSel v (loc - (pfx.length : Int))
          "source.css -meta.at-rule -meta.property-list.css" &&
        matchSel v (loc - (pfx.length : Int) - 1)
          "punctuation.definition.keyword.css") = false →
      matchSel v (loc - (pfx.length : Int)) "source.css meta.at-rule"
        = false →
      property_name_scope v (loc - (pfx.length : Int)) = true →
      on_query_completions tb v pfx [loc] =
        .ok (some (.itemsInhibit tb.p_names))) ∧
    (matchSel v (loc - (pfx.length : Int)) "source.css meta.function"
        = false →
      (matchSel v (loc - (pfx.length : Int))
          "source.css -meta.at-rule -meta.property-list.css" &&
        matchSel v (loc - (pfx.length : Int) - 1)
          "punctuation.definition.keyword.css") = false →
      matchSel v (loc - (pfx.length : Int)) "source.css meta.at-rule"
        = false →
      property_name_scope v (loc - (pfx.length : Int)) = false →
      matchSel v (loc - (pfx.length : Int))
        "source.css meta.property-value-pair" = true →
      on_query_completions tb v pfx [loc] =
        (get_property_values tb
          (get_current_scopes v (loc - (pfx.length : Int)))).map some) ∧
    (matchSel v (loc - (pfx.length : Int)) "source.css meta.function"
        = false →
      (matchSel v (loc - (pfx.length : Int))
          "source.css -meta.at-rule -meta.property-list.css" &&
        matchSel v (loc - (pfx.length : Int) - 1)
          "punctuation.definition.keyword.css") = false →
      matchSel v (loc - (pfx.length : Int)) "source.css meta.at-rule"
        = false →
      property_name_scope v (loc - (pfx.length : Int)) = false →
      matchSel v (loc - (pfx.length : Int))
        "source.css meta.property-value-pair" = false →
      matchSel v (loc - (pfx.length : Int)) "meta.selector.css" = true →
      on_query_completions tb v pfx [loc] =
        .ok (handle_selector_completions tb v (loc - (pfx.length : Int)))) := by
  refine ⟨?_, ?_, ?_, ?_, ?_, ?_⟩
  · intro h1
    unfold on_query_completions
    simp [hc, h1]
  · intro h1 h2
    unfold on_query_completions
    simp [hc, h1, h2]
  · intro h1 h2 h3
    unfold on_query_completions
    simp [hc, h1, h2, h3]
  · intro h1 h2 h3 h4
    unfold on_query_completions
    simp [hc, h1, h2, h3, h4]
  · intro h1 h2 h3 h4 h5
    unfold on_query_completions
    simp [hc, h1, h2, h3, h4, h5]
  · intro h1 h2 h3 h4 h5 h6
    unfold on_query_completions
    simp [hc, h1, h2, h3, h4, h5, h6]

/-- Witness for `cascade_first_match`: on the overlapping stack of the
counterexample, the result is the function branch's, the first in the
priority order. -/
theorem cascade_first_match_witness :
    on_query_completions tbW vC8 "" [0] =
      (get_functions tbW
        (get_current_scopes vC8 ((0 : Int) -
          (("" : String).length : Int)))).map some :=
  (cascade_first_match tbW vC8 "" 0 (by decide)).1 (by decide)
